import Mathlib

/-!
Verification of the gomqtt client core against its specification.

The byte-level helpers (`readLPBytes`, `writeLPBytes`), `ValidConnackError`
and the `Fuzz` harness are embedded directly from `message.go`.  The client
support machinery (counter, futures, future store, service scenarios) is
modelled from the specification, since only its tests appear in the tree.

Conventions: Go byte slices are `List Nat` (entries intended `< 256`);
machine integers are `Nat` with explicit `% 65536` where the code wraps;
Go functions returning `error` become `GoResult`, whose third constructor
records a runtime panic (e.g. a slice bound violation), which in Go is not
an error return.
-/

set_option autoImplicit false

namespace Gomqtt

/-- Sentinel error values of the library.  Go compares errors by identity,
so each named sentinel is a distinct constructor; `errorf` stands for the
anonymous errors produced by `fmt.Errorf`. -/
inductive Err where
  | ErrInvalidProtocolVersion
  | ErrIdentifierRejected
  | ErrServerUnavailable
  | ErrBadUsernameOrPassword
  | ErrNotAuthorized
  | ErrTimeoutExceeded
  | ErrFutureCanceled
  | ErrClientNotConnected
  | ErrQueueFull
  | errorf (msg : String)
deriving DecidableEq, Repr

/-- Outcome of a Go call: a normal value, an error return, or a runtime
panic (which is not an error return). -/
inductive GoResult (α : Type) where
  | ok (val : α)
  | err (msg : String)
  | panics (msg : String)
deriving DecidableEq, Repr

/-- Embedded from `message.go`: `ValidConnackError` checks whether the error
is one of the five CONNACK refusal errors. -/
def ValidConnackError (e : Err) : Bool :=
  e == Err.ErrInvalidProtocolVersion || e == Err.ErrIdentifierRejected ||
  e == Err.ErrServerUnavailable || e == Err.ErrBadUsernameOrPassword ||
  e == Err.ErrNotAuthorized

/-- Embedded from `message.go`: `readLPBytes` reads a 16-bit big-endian
length prefix `n` and returns the sub-slice `buf[2 : 2+n]`.  The source
guards with `len(buf) < 2` and then `len(buf) < n`; the final slice
expression `buf[2 : 2+n]` panics when `2+n` exceeds the bounds of `buf`,
which the guards do not rule out. -/
def readLPBytes (buf : List Nat) : GoResult (List Nat × Nat) :=
  if buf.length < 2 then
    .err "utils/readLPBytes: Insufficient buffer size."
  else
    let n := 256 * buf.headD 0 + (buf.tail).headD 0
    if buf.length < n then
      .err "utils/readLPBytes: Insufficient buffer size."
    else if 2 + n ≤ buf.length then
      .ok ((buf.drop 2).take n, 2 + n)
    else
      .panics "slice bounds out of range"

/-- Embedded from `message.go`: `writeLPBytes` writes a 16-bit big-endian
length prefix followed by the payload `b` into `buf`, returning the number
of bytes written and the updated buffer (the buffer is mutated in place in
Go; both error returns happen before any write). -/
def writeLPBytes (buf b : List Nat) : GoResult Nat × List Nat :=
  let n := b.length
  if n > 65535 then
    (.err "utils/writeLPBytes: Length greater than max LP string.", buf)
  else if buf.length < 2 + n then
    (.err "utils/writeLPBytes: Insufficient buffer size.", buf)
  else
    (.ok (2 + n), n / 256 :: n % 256 :: (b ++ buf.drop (2 + n)))

/-- Modelled from the spec: the packet-ID `Counter` (§3, §4.1) — a single
16-bit field; the implementation is not under `src/` (only `TestCounter`). -/
structure Counter where
  id : Nat
deriving DecidableEq, Repr

/-- Modelled from the spec: `newCounter()` starts at 0. -/
def newCounter : Counter := ⟨0⟩

/-- Modelled from the spec (§4.1): `next()` returns `id`, then sets
`id = (id + 1) mod 65536`. -/
def Counter.next (c : Counter) : Nat × Counter :=
  (c.id, ⟨(c.id + 1) % 65536⟩)

/-- Modelled from the spec (§3): the resolution state of a `Future` with
result type `α` — pending, completed (with optional result and error), or
cancelled.  The future implementation is not under `src/` (only its
tests). -/
inductive FutureState (α : Type) where
  | pending
  | completed (result : Option α) (failure : Option Err)
  | cancelled
deriving DecidableEq, Repr

/-- Modelled from the spec (§3): `complete` resolves a future; the first
resolution wins, later calls are no-ops. -/
def FutureState.complete {α : Type} (f : FutureState α) (r : Option α)
    (e : Option Err) : FutureState α :=
  match f with
  | .pending => .completed r e
  | other => other

/-- Modelled from the spec (§5): `Cancel()` marks a pending future
cancelled; a resolved future keeps its first resolution. -/
def FutureState.cancel {α : Type} (f : FutureState α) : FutureState α :=
  match f with
  | .pending => .cancelled
  | other => other

/-- Modelled from the spec (§3, §9): `f2.Bind(f1)` waits on the completion
signal of `f1` and copies its outcome onto `f2`; cancellation propagates.
While `f1` is unresolved the bind is still blocked and `f2` is
unchanged. -/
def FutureState.bind {α : Type} (f2 f1 : FutureState α) : FutureState α :=
  match f1 with
  | .cancelled => .cancelled
  | .completed r e => .completed r e
  | .pending => f2

/-- Modelled from the spec (§5, §7): `Wait(d)` returns `ErrFutureCanceled`
on a cancelled future, the stored error or success on a completed one, and
`ErrTimeoutExceeded` once `d` elapses on a pending one. -/
def FutureState.wait {α : Type} (f : FutureState α) (d : Nat) : Except Err Unit :=
  match f with
  | .cancelled => .error Err.ErrFutureCanceled
  | .completed _ (some e) => .error e
  | .completed _ none => .ok ()
  | .pending => .error Err.ErrTimeoutExceeded

/-- Modelled from the spec (§3): a `GenericFuture` carries no result. -/
def newGenericFuture : FutureState Unit := .pending

/-- Modelled from the spec (§3): a `SubscribeFuture` carries the granted
QoS values from SUBACK. -/
def newSubscribeFuture : FutureState (List Nat) := .pending

/-- Modelled from the spec (§3): a `FutureStore` maps packet IDs (uint16)
to future handles.  Go map semantics: `put` replaces, `del` removes. -/
structure FutureStore (φ : Type) where
  entries : List (Nat × φ)
deriving DecidableEq, Repr

/-- Modelled from the spec: `newFutureStore()` is empty. -/
def newFutureStore (φ : Type) : FutureStore φ := ⟨[]⟩

/-- Remove every entry with the given key from an association list. -/
def delKey {φ : Type} (id : Nat) : List (Nat × φ) → List (Nat × φ)
  | [] => []
  | (k, f) :: rest => if k = id then delKey id rest else (k, f) :: delKey id rest

/-- Look up the first entry with the given key in an association list. -/
def lookKey {φ : Type} (id : Nat) : List (Nat × φ) → Option φ
  | [] => none
  | (k, f) :: rest => if k = id then some f else lookKey id rest

/-- Modelled from the spec (§3): `del(id)` removes the entry at `id`. -/
def FutureStore.del {φ : Type} (s : FutureStore φ) (id : Nat) : FutureStore φ :=
  ⟨delKey id s.entries⟩

/-- Modelled from the spec (§3): `put(id, f)` stores `f` under `id`,
replacing any previous entry with that key (Go map assignment). -/
def FutureStore.put {φ : Type} (s : FutureStore φ) (id : Nat) (f : φ) : FutureStore φ :=
  ⟨(id, f) :: delKey id s.entries⟩

/-- Modelled from the spec (§3): `get(id)` returns the stored future, if
any. -/
def FutureStore.get {φ : Type} (s : FutureStore φ) (id : Nat) : Option φ :=
  lookKey id s.entries

/-- Modelled from the spec (§3): `all()` returns a snapshot of the stored
entries. -/
def FutureStore.all {φ : Type} (s : FutureStore φ) : List (Nat × φ) :=
  s.entries

/-- Modelled from the spec (§4.2): concurrent mutations the store can
undergo while `await` polls — a put or a delete at a packet ID. -/
inductive StoreEvent (φ : Type) where
  | putE (id : Nat) (f : φ)
  | delE (id : Nat)
deriving DecidableEq, Repr

/-- Apply one store event. -/
def applyEvent {φ : Type} (s : FutureStore φ) : StoreEvent φ → FutureStore φ
  | .putE id f => s.put id f
  | .delE id => s.del id

/-- A schedule of concurrent store mutations, time-stamped in ticks. -/
def Schedule (φ : Type) : Type := List (Nat × StoreEvent φ)

/-- The contents of the store at tick `t`: the initial store with every
event whose time-stamp is at most `t` applied in schedule order. -/
def storeAt {φ : Type} (s0 : FutureStore φ) (sched : Schedule φ) (t : Nat) :
    FutureStore φ :=
  (sched.filter (fun e => e.1 ≤ t)).foldl (fun s e => applyEvent s e.2) s0

/-- Modelled from the spec (§4.2): `await` polls the store size once per
tick; it returns `ok` as soon as the store is empty and
`ErrTimeoutExceeded` when the deadline passes first.  `t` is the current
tick, the second argument the number of ticks left before the deadline. -/
def awaitFrom {φ : Type} (s0 : FutureStore φ) (sched : Schedule φ) (t : Nat) :
    Nat → Except Err Unit
  | 0 =>
    if (storeAt s0 sched t).entries.isEmpty then .ok ()
    else .error Err.ErrTimeoutExceeded
  | r + 1 =>
    if (storeAt s0 sched t).entries.isEmpty then .ok ()
    else awaitFrom s0 sched (t + 1) r

/-- Modelled from the spec (§3, §4.2): `await(d)` returns when the store is
empty or the deadline `d` passes. -/
def FutureStore.await {φ : Type} (s0 : FutureStore φ) (sched : Schedule φ)
    (d : Nat) : Except Err Unit :=
  awaitFrom s0 sched 0 d

/-- MQTT packets as the client layer sees them (the bit-level codec is out
of scope; packets are typed values). -/
inductive Packet where
  | connect (clientID : String) (cleanSession : Bool)
  | connack (sessionPresent : Bool) (returnCode : Nat)
  | subscribe (pid : Nat) (topic : String) (qos : Nat)
  | suback (pid : Nat) (returnCodes : List Nat)
  | publish (topic : String) (payload : String) (qos : Nat) (retain : Bool)
  | disconnect
deriving DecidableEq, Repr

/-- Client connection states (spec §3). -/
inductive ClientState where
  | initial
  | connecting
  | connected
  | disconnecting
  | disconnected
deriving DecidableEq, Repr

/-- Modelled from the spec (§4.3): a single-session client, reduced to the
state field and the wire trace (every packet that crossed the connection,
in order, both directions). -/
structure Client where
  state : ClientState
  trace : List Packet
deriving DecidableEq, Repr

/-- A fresh client. -/
def newClient : Client := ⟨.initial, []⟩

/-- Modelled from the spec (§4.3): `Connect` builds the CONNECT packet from
the options, sends it, and moves `Initial → Connecting`. -/
def Client.connect (c : Client) (clientID : String) (cleanSession : Bool) : Client :=
  { state := .connecting, trace := c.trace ++ [Packet.connect clientID cleanSession] }

/-- Modelled from the spec (§4.3): on CONNACK with return code `Accepted`
the client moves `Connecting → Connected`; a refusal tears it down. -/
def Client.onConnack (c : Client) (sessionPresent : Bool) (code : Nat) : Client :=
  if code = 0 then
    { state := .connected, trace := c.trace ++ [Packet.connack sessionPresent code] }
  else
    { state := .disconnected, trace := c.trace ++ [Packet.connack sessionPresent code] }

/-- Modelled from the spec (§4.3): `Disconnect` sends DISCONNECT and moves
to `Disconnected`. -/
def Client.disconnect (c : Client) : Client :=
  { state := .disconnected, trace := c.trace ++ [Packet.disconnect] }

/-- Modelled from the spec (§4.5): `ClearSession` connects with
`CleanSession=true` and the given client identifier, then disconnects,
returning any error.  The `url` selects the broker; the scripted broker
(as in the test) accepts the connection. -/
def ClearSession (url : String) (clientID : String) : Client × Option Err :=
  let c := newClient.connect clientID true
  let c := c.onConnack false 0
  let c := c.disconnect
  (c, none)

/-- Service supervisor states (spec §3). -/
inductive ServiceState where
  | stopped
  | starting
  | online
  | reconnecting
  | stopping
deriving DecidableEq, Repr

/-- Modelled from the spec (§4.4): the Service, reduced to its state, the
packets it sent, the packets it received, and the recorded callback
invocations (`Online(resumed)` and `Message(topic, payload)`); the spec
serializes callback invocations, so lists record them in order. -/
structure Service where
  state : ServiceState
  sent : List Packet
  received : List Packet
  onlineCalls : List Bool
  messageCalls : List (String × String)
deriving DecidableEq, Repr

/-- A fresh, stopped service. -/
def newService : Service := ⟨.stopped, [], [], [], []⟩

/-- Modelled from the spec (§4.4): `Start` moves `Stopped → Starting` and
attempts a connect, sending CONNECT built from the options. -/
def Service.start (s : Service) (clientID : String) (cleanSession : Bool) : Service :=
  { s with state := .starting, sent := s.sent ++ [Packet.connect clientID cleanSession] }

/-- Modelled from the spec (§4.4): on a successful CONNACK the service
moves to `Online` and emits `Online(resumed = SessionPresent)`. -/
def Service.onConnack (s : Service) (sessionPresent : Bool) : Service :=
  { s with state := .online,
           received := s.received ++ [Packet.connack sessionPresent 0],
           onlineCalls := s.onlineCalls ++ [sessionPresent] }

/-- Modelled from the spec (§4.4): when online, `Subscribe` forwards to the
client, which sends a SUBSCRIBE packet. -/
def Service.subscribeOp (s : Service) (pid : Nat) (topic : String) (qos : Nat) : Service :=
  { s with sent := s.sent ++ [Packet.subscribe pid topic qos] }

/-- Modelled from the spec (§4.3): an incoming SUBACK acknowledges the
subscription. -/
def Service.onSuback (s : Service) (pid : Nat) (codes : List Nat) : Service :=
  { s with received := s.received ++ [Packet.suback pid codes] }

/-- Modelled from the spec (§4.4): when online, `Publish` forwards to the
client, which sends a PUBLISH packet. -/
def Service.publishOp (s : Service) (topic payload : String) (qos : Nat)
    (retain : Bool) : Service :=
  { s with sent := s.sent ++ [Packet.publish topic payload qos retain] }

/-- Modelled from the spec (§4.3, §4.4): an incoming PUBLISH is delivered
to the `Message` callback with its topic and payload. -/
def Service.onPublish (s : Service) (topic payload : String) (qos : Nat)
    (retain : Bool) : Service :=
  { s with received := s.received ++ [Packet.publish topic payload qos retain],
           messageCalls := s.messageCalls ++ [(topic, payload)] }

/-- Modelled from the spec (§4.4): `Stop` disconnects the client (sending
DISCONNECT) and moves through `Stopping` to `Stopped`. -/
def Service.stop (s : Service) : Service :=
  { s with state := .stopped, sent := s.sent ++ [Packet.disconnect] }

/-- Modelled from the spec (§8, scenario 1): the basic pub/sub scenario —
start against a scripted broker, subscribe to "test" at QoS 0, broker
grants with SUBACK return code 0, publish "test"/"test" at QoS 0, broker
echoes the PUBLISH, then stop. -/
def servicePubSubScenario : Service :=
  ((((((newService.start "" true).onConnack false).subscribeOp 0 "test" 0
      ).onSuback 0 [0]).publishOp "test" "test" 0 false
      ).onPublish "test" "test" 0 false).stop

/-! ### Helper lemmas -/

theorem lookKey_delKey_self {φ : Type} (id : Nat) (l : List (Nat × φ)) :
    lookKey id (delKey id l) = none := by
  induction l with
  | nil => rfl
  | cons e rest ih =>
    obtain ⟨k, f⟩ := e
    by_cases h : k = id
    · simpa [delKey, h] using ih
    · simpa [delKey, lookKey, h] using ih

theorem mem_delKey {φ : Type} (id : Nat) (l : List (Nat × φ)) (k : Nat) (g : φ) :
    (k, g) ∈ delKey id l ↔ (k ≠ id ∧ (k, g) ∈ l) := by
  induction l with
  | nil => simp [delKey]
  | cons e rest ih =>
    obtain ⟨k', f⟩ := e
    simp only [delKey]
    split_ifs with h
    · subst h
      rw [ih]
      simp only [List.mem_cons, Prod.mk.injEq]
      constructor
      · rintro ⟨hne, hm⟩
        exact ⟨hne, Or.inr hm⟩
      · rintro ⟨hne, ⟨hk, _⟩ | hm⟩
        · exact absurd hk hne
        · exact ⟨hne, hm⟩
    · simp only [List.mem_cons, Prod.mk.injEq, ih]
      constructor
      · rintro (⟨hk, hg⟩ | ⟨hne, hm⟩)
        · subst hk
          subst hg
          exact ⟨h, Or.inl ⟨rfl, rfl⟩⟩
        · exact ⟨hne, Or.inr hm⟩
      · rintro ⟨hne, ⟨hk, hg⟩ | hm⟩
        · subst hk
          subst hg
          exact Or.inl ⟨rfl, rfl⟩
        · exact Or.inr ⟨hne, hm⟩

theorem lookKey_mem {φ : Type} (id : Nat) (l : List (Nat × φ)) (g : φ)
    (h : lookKey id l = some g) : (id, g) ∈ l := by
  induction l with
  | nil => simp [lookKey] at h
  | cons e rest ih =>
    obtain ⟨k, f⟩ := e
    simp only [lookKey] at h
    split_ifs at h with hk
    · subst hk
      injection h with hfg
      subst hfg
      exact List.mem_cons_self _ _
    · exact List.mem_cons_of_mem _ (ih h)

theorem awaitFrom_ok_iff {φ : Type} (s0 : FutureStore φ) (sched : Schedule φ) :
    ∀ (r t : Nat), awaitFrom s0 sched t r = Except.ok () ↔
      ∃ k, k ≤ r ∧ (storeAt s0 sched (t + k)).entries.isEmpty = true := by
  intro r
  induction r with
  | zero =>
    intro t
    simp only [awaitFrom]
    by_cases h : (storeAt s0 sched t).entries.isEmpty = true
    · rw [if_pos h]
      constructor
      · intro _
        exact ⟨0, Nat.le_refl 0, by simpa using h⟩
      · intro _
        rfl
    · rw [if_neg h]
      constructor
      · intro hc
        cases hc
      · rintro ⟨k, hk, he⟩
        have hk0 : k = 0 := Nat.le_zero.mp hk
        subst hk0
        simp only [Nat.add_zero] at he
        exact absurd he h
  | succ r ih =>
    intro t
    simp only [awaitFrom]
    by_cases h : (storeAt s0 sched t).entries.isEmpty = true
    · rw [if_pos h]
      constructor
      · intro _
        exact ⟨0, Nat.zero_le _, by simpa using h⟩
      · intro _
        rfl
    · rw [if_neg h, ih (t + 1)]
      constructor
      · rintro ⟨k, hk, he⟩
        refine ⟨k + 1, by omega, ?_⟩
        have harith : t + (k + 1) = t + 1 + k := by omega
        rw [harith]
        exact he
      · rintro ⟨k, hk, he⟩
        cases k with
        | zero =>
          simp only [Nat.add_zero] at he
          exact absurd he h
        | succ k' =>
          refine ⟨k', by omega, ?_⟩
          have harith : t + 1 + k' = t + (k' + 1) := by omega
          rw [harith]
          exact he

theorem awaitFrom_result {φ : Type} (s0 : FutureStore φ) (sched : Schedule φ) :
    ∀ (r t : Nat), awaitFrom s0 sched t r = Except.ok () ∨
      awaitFrom s0 sched t r = Except.error Err.ErrTimeoutExceeded := by
  intro r
  induction r with
  | zero =>
    intro t
    simp only [awaitFrom]
    by_cases h : (storeAt s0 sched t).entries.isEmpty = true
    · exact Or.inl (by rw [if_pos h])
    · exact Or.inr (by rw [if_neg h])
  | succ r ih =>
    intro t
    simp only [awaitFrom]
    by_cases h : (storeAt s0 sched t).entries.isEmpty = true
    · exact Or.inl (by rw [if_pos h])
    · rw [if_neg h]
      exact ih (t + 1)

/-! ### Claim theorems -/

/-- Claim C4: `Counter.next()` returns the current value of `id` and then
sets `id` to `(id + 1) mod 65536`; a fresh counter first returns 0, and
with `id = 65535`, `next()` returns 65535 and the following call
returns 0. -/
theorem counter_next_spec (c : Counter) :
    (c.next).1 = c.id
    ∧ ((c.next).2).id = (c.id + 1) % 65536
    ∧ (newCounter.next).1 = 0
    ∧ (Counter.next ⟨65535⟩).1 = 65535
    ∧ (((Counter.next ⟨65535⟩).2).next).1 = 0 :=
  ⟨rfl, rfl, rfl, rfl, by decide⟩

/-- Claim C6: an error is a CONNACK refusal (`ValidConnackError` returns
true) exactly when it is one of the five errors `ErrInvalidProtocolVersion`,
`ErrIdentifierRejected`, `ErrServerUnavailable`, `ErrBadUsernameOrPassword`,
`ErrNotAuthorized`. -/
theorem validConnackError_iff (e : Err) :
    ValidConnackError e = true ↔
      (e = Err.ErrInvalidProtocolVersion ∨ e = Err.ErrIdentifierRejected ∨
       e = Err.ErrServerUnavailable ∨ e = Err.ErrBadUsernameOrPassword ∨
       e = Err.ErrNotAuthorized) := by
  cases e <;> simp [ValidConnackError]

/-- Claim C9 (evaluation at the failing input): on the two-byte buffer
`[0x00, 0x01]`, whose length prefix is 1, both guards in `readLPBytes`
pass (`len(buf) ≥ 2` and `¬(len(buf) < n)`), yet `2 + n = 3` exceeds the
buffer length, so the slice expression `buf[2:3]` is out of bounds — the
function neither returns an error nor an in-bounds sub-slice, contradicting
the claimed safety property. -/
theorem readLPBytes_out_of_bounds :
    readLPBytes [0, 1] = GoResult.panics "slice bounds out of range" := rfl

/-- Claim C10: `writeLPBytes(buf, b)` errors while leaving `buf` unmodified
when `len(b) > 65535` or `len(buf) < 2 + len(b)`; otherwise it returns
`2 + len(b)` and the first `2 + len(b)` bytes of the buffer hold the
big-endian 16-bit length of `b` followed by the bytes of `b` (the rest of
the buffer unchanged). -/
theorem writeLPBytes_correct (buf b : List Nat) :
    ((b.length > 65535 ∨ buf.length < 2 + b.length) →
       (∃ m, (writeLPBytes buf b).1 = GoResult.err m) ∧
       (writeLPBytes buf b).2 = buf)
    ∧ (b.length ≤ 65535 → 2 + b.length ≤ buf.length →
       (writeLPBytes buf b).1 = GoResult.ok (2 + b.length)
       ∧ ((writeLPBytes buf b).2).take (2 + b.length)
           = b.length / 256 :: b.length % 256 :: b
       ∧ ((writeLPBytes buf b).2).drop (2 + b.length) = buf.drop (2 + b.length)
       ∧ ((writeLPBytes buf b).2).length = buf.length) := by
  constructor
  · intro h
    rcases h with h | h
    · rw [writeLPBytes, if_pos h]
      exact ⟨⟨_, rfl⟩, rfl⟩
    · by_cases h1 : b.length > 65535
      · rw [writeLPBytes, if_pos h1]
        exact ⟨⟨_, rfl⟩, rfl⟩
      · rw [writeLPBytes, if_neg h1, if_pos h]
        exact ⟨⟨_, rfl⟩, rfl⟩
  · intro h1 h2
    have hn1 : ¬ b.length > 65535 := by omega
    have hn2 : ¬ buf.length < 2 + b.length := by omega
    rw [writeLPBytes, if_neg hn1, if_neg hn2]
    refine ⟨rfl, ?_, ?_, ?_⟩
    · have harith : 2 + b.length = b.length + 1 + 1 := by omega
      rw [harith]
      simp only [List.take_succ_cons]
      rw [List.take_left]
    · have harith : 2 + b.length = b.length + 1 + 1 := by omega
      rw [harith]
      simp only [List.drop_succ_cons]
      rw [List.drop_left]
    · simp only [List.length_cons, List.length_append, List.length_drop]
      omega

/-- Witness for C10: a concrete success and a concrete error leaving the
buffer untouched. -/
theorem writeLPBytes_correct_witness :
    (writeLPBytes [0, 0, 0, 0, 0] [9, 8, 7]).1 = GoResult.ok 5
    ∧ (writeLPBytes [0] [1]).2 = [0] :=
  ⟨((writeLPBytes_correct [0, 0, 0, 0, 0] [9, 8, 7]).2 (by decide) (by decide)).1,
   ((writeLPBytes_correct [0] [1]).1 (Or.inr (by decide))).2⟩

/-- Claim C5: `ClearSession(url, clientID)` connects with
`CleanSession=true` and the given client identifier and then disconnects;
the wire trace is exactly CONNECT{ClientID=clientID, CleanSession=true},
CONNACK, DISCONNECT, and the call returns no error. -/
theorem clearSession_trace (url clientID : String) :
    ((ClearSession url clientID).1).trace =
      [Packet.connect clientID true, Packet.connack false 0, Packet.disconnect]
    ∧ ((ClearSession url clientID).1).state = ClientState.disconnected
    ∧ (ClearSession url clientID).2 = none :=
  ⟨rfl, rfl, rfl⟩

/-- Claim C8: in the basic pub/sub scenario the `Message` callback is
invoked exactly once, with topic "test" and payload "test"; the `Online`
callback reports `resumed = false`; the SUBACK carries return code 0; the
service sends CONNECT, SUBSCRIBE, PUBLISH and finally DISCONNECT; and after
`Stop()` the service is `Stopped`. -/
theorem service_pubsub_scenario :
    servicePubSubScenario.messageCalls = [("test", "test")]
    ∧ servicePubSubScenario.onlineCalls = [false]
    ∧ servicePubSubScenario.sent =
        [Packet.connect "" true, Packet.subscribe 0 "test" 0,
         Packet.publish "test" "test" 0 false, Packet.disconnect]
    ∧ servicePubSubScenario.received =
        [Packet.connack false 0, Packet.suback 0 [0],
         Packet.publish "test" "test" 0 false]
    ∧ servicePubSubScenario.state = ServiceState.stopped :=
  ⟨rfl, rfl, rfl, rfl, rfl⟩

/-- Claim C7: after `put(id, f)` the store `get`s `f` back at `id` and the
entry is in the `all()` snapshot; after `del(id)` the entry is gone from
both `get` and `all()`; a fresh store has an empty snapshot; and every
entry reported by `get` is in the snapshot. -/
theorem futureStore_ops {φ : Type} (s : FutureStore φ) (id : Nat) (f : φ)
    (k : Nat) (g : φ) :
    (newFutureStore φ).all = []
    ∧ (s.put id f).get id = some f
    ∧ (id, f) ∈ (s.put id f).all
    ∧ (s.del id).get id = none
    ∧ ((k, g) ∈ (s.del id).all ↔ (k ≠ id ∧ (k, g) ∈ s.all))
    ∧ (s.get k = some g → (k, g) ∈ s.all) := by
  refine ⟨rfl, ?_, ?_, ?_, ?_, ?_⟩
  · simp [FutureStore.put, FutureStore.get, lookKey]
  · exact List.mem_cons_self _ _
  · exact lookKey_delKey_self id s.entries
  · exact mem_delKey id s.entries k g
  · exact fun h => lookKey_mem k s.entries g h

/-- Witness for C7: a concrete `get`/`all` membership via the final
conjunct. -/
theorem futureStore_ops_witness :
    (2, 5) ∈ (FutureStore.all (⟨[(2, 5)]⟩ : FutureStore Nat)) :=
  (futureStore_ops (⟨[(2, 5)]⟩ : FutureStore Nat) 9 7 2 5).2.2.2.2.2 rfl

/-- Claim C3: if `f1` has been cancelled, then after `f2.Bind(f1)` every
`f2.Wait(d)`, for any duration `d`, returns `ErrFutureCanceled` — `Bind`
propagates the cancellation onto the bound future. -/
theorem bind_cancelled_wait {α : Type} (f1 f2 : FutureState α)
    (h : f1 = FutureState.cancelled) (d : Nat) :
    (f2.bind f1).wait d = Except.error Err.ErrFutureCanceled := by
  subst h
  rfl

/-- Witness for C3: a fresh generic future bound to a cancelled one, and a
fresh subscribe future bound to a cancelled one, both report
`ErrFutureCanceled` on `Wait(10)`. -/
theorem bind_cancelled_wait_witness :
    (newGenericFuture.bind newGenericFuture.cancel).wait 10
        = Except.error Err.ErrFutureCanceled
    ∧ (newSubscribeFuture.bind newSubscribeFuture.cancel).wait 10
        = Except.error Err.ErrFutureCanceled :=
  ⟨bind_cancelled_wait newGenericFuture.cancel newGenericFuture rfl 10,
   bind_cancelled_wait newSubscribeFuture.cancel newSubscribeFuture rfl 10⟩

/-- Claim C2: `await(d)` returns ok exactly when the store becomes empty
at some tick before the deadline `d` passes, and returns
`ErrTimeoutExceeded` in every other case (the result is always one of the
two); in particular, with one pending future deleted at tick 1 it returns
ok for deadline 10, and with one pending future never deleted it returns
`ErrTimeoutExceeded`. -/
theorem futureStore_await_spec {φ : Type} (s0 : FutureStore φ)
    (sched : Schedule φ) (d : Nat) :
    ((FutureStore.await s0 sched d = Except.ok ()) ↔
       ∃ t, t ≤ d ∧ (storeAt s0 sched t).entries.isEmpty = true)
    ∧ (FutureStore.await s0 sched d = Except.ok () ∨
       FutureStore.await s0 sched d = Except.error Err.ErrTimeoutExceeded)
    ∧ FutureStore.await ((newFutureStore (FutureState Unit)).put 1 newGenericFuture)
        [(1, StoreEvent.delE 1)] 10 = Except.ok ()
    ∧ FutureStore.await ((newFutureStore (FutureState Unit)).put 1 newGenericFuture)
        [] 10 = Except.error Err.ErrTimeoutExceeded := by
  refine ⟨?_, awaitFrom_result s0 sched d 0, rfl, rfl⟩
  have h := awaitFrom_ok_iff s0 sched d 0
  simpa [FutureStore.await] using h

end Gomqtt
